import Mathlib

/-!
Shallow embedding of the load-testing harness's core components:
the shared product cache (`src/locust-simulations/src/utils/shared_data.py`),
the response validators (`src/locust-simulations/src/utils/validators.py` and
`src/locust-simulations/src/utils/http_validation.py`), the retrying request
executor (`src/locust-simulations/src/base_user.py`, `_retry_request`), the
weight-configuration logic of the two `create_action_config` variants
(`src/tests/simulate.py` and `src/simulations/src/simulate.py`), and the
per-user cache-handle initialisation of the two base-user variants
(`src/locust-simulations/src/base_user.py` and
`src/locust-simulations/src/users/base_user.py`).

JSON values are modelled in stratified layers (leaf values, candidate product
entries, values inside a top-level object, parsed bodies), which covers every
wire shape the validators dispatch on while keeping decidable equality
derivable.  A Python `set` is modelled as a duplicate-free list grown by
insert-if-absent.
-/

/-- A JSON leaf value: a string, number, boolean or null.  Product field
values (`name`, `category`, `price`, `stock`, `description`) are leaves. -/
inductive JLeaf where
  | str : String → JLeaf
  | num : ℚ → JLeaf
  | bool : Bool → JLeaf
  | null : JLeaf
deriving DecidableEq, Repr

/-- Python truthiness of a leaf value: `""`, `0`, `False` and `None` are
falsy, everything else is truthy (`if product["category"]:`). -/
def JLeaf.truthy : JLeaf → Bool
  | .str s => s ≠ ""
  | .num q => q ≠ 0
  | .bool b => b
  | .null => false

/-- A product, as stored in the shared cache: a dictionary mapping field
names to leaf values (insertion ordered, like a Python dict). -/
abbrev ProductDict := List (String × JLeaf)

namespace SharedDataModel

/-- One step of the category-extraction loop in
`SharedData.update_products`: `if "category" in product and
product["category"]: self._categories.add(product["category"])`.
The Python `set.add` is modelled as insert-if-absent. -/
def addCategory (acc : List JLeaf) (p : ProductDict) : List JLeaf :=
  match p.lookup "category" with
  | some v => if v.truthy then (if v ∈ acc then acc else acc ++ [v]) else acc
  | none => acc

/-- State of `SharedData` (`src/locust-simulations/src/utils/shared_data.py`):
the product list, the accumulated category set and the last-update stamp.
The `threading.RLock` guards each operation for its full duration; each
operation is therefore modelled as one atomic function on this state. -/
structure SharedData where
  products : List ProductDict
  categories : List JLeaf
  lastProductUpdate : ℕ
deriving Repr, DecidableEq

/-- `SharedData.__init__`: empty products, empty categories. -/
def SharedData.init : SharedData :=
  { products := [], categories := [], lastProductUpdate := 0 }

/-- The category values contributed by one products list on its own. -/
def categoriesOf (ps : List ProductDict) : List JLeaf :=
  ps.foldl addCategory []

/-- `SharedData.update_products`: replaces the product list, stamps the
update time and adds every truthy `category` field of the new products to
the category set (old categories are never removed). -/
def SharedData.update_products (s : SharedData) (ps : List ProductDict)
    (now : ℕ) : SharedData :=
  { products := ps
    categories := ps.foldl addCategory s.categories
    lastProductUpdate := now }

/-- `SharedData.get_products`: returns a copy of the product list. -/
def SharedData.get_products (s : SharedData) : List ProductDict :=
  s.products

/-- `SharedData.get_random_product`: `random.choice` over the products,
modelled with an index seed; `None` when the list is empty. -/
def SharedData.get_random_product (s : SharedData) (k : ℕ) :
    Option ProductDict :=
  if s.products.length = 0 then none
  else s.products.get? (k % s.products.length)

/-- `SharedData.get_product_by_name`: linear scan, first match wins. -/
def SharedData.get_product_by_name (s : SharedData) (name : String) :
    Option ProductDict :=
  s.products.find? (fun p => p.lookup "name" == some (JLeaf.str name))

/-- `SharedData.get_categories`: returns `list(self._categories)`, a copy of
the accumulated category set. -/
def SharedData.get_categories (s : SharedData) : List JLeaf :=
  s.categories

/-- `SharedData.get_random_category`: `random.choice` over the categories,
modelled with an index seed; `None` when the set is empty. -/
def SharedData.get_random_category (s : SharedData) (k : ℕ) : Option JLeaf :=
  if s.get_categories.isEmpty then none
  else s.get_categories.get? (k % s.get_categories.length)

/-- The cache operations, for stating state-evolution invariants. -/
inductive CacheOp where
  | update (ps : List ProductDict) (now : ℕ)
  | getProducts
  | getRandomProduct (k : ℕ)
  | getProductByName (name : String)
  | getCategories
  | getRandomCategory (k : ℕ)

/-- The state reached after one cache operation (reads leave the state
unchanged; `update_products` is the only mutator). -/
def CacheOp.step (op : CacheOp) (s : SharedData) : SharedData :=
  match op with
  | .update ps now => s.update_products ps now
  | _ => s

end SharedDataModel

namespace ValidationModel

/-- A candidate product entry inside a list or map: either a dictionary of
leaf fields (a product object) or a non-dictionary value. -/
inductive JEntry where
  | obj : List (String × JLeaf) → JEntry
  | leaf : JLeaf → JEntry
deriving DecidableEq, Repr

/-- A value sitting inside a top-level response object: a single entry, a
list of entries (e.g. the value of `data`), or a map from names to
entries. -/
inductive JInner where
  | entry : JEntry → JInner
  | arr : List JEntry → JInner
  | map : List (String × JEntry) → JInner
deriving DecidableEq, Repr

/-- A parsed response body, as dispatched on by `isinstance` checks: a bare
non-container value, a bare list of entries, or an object (bare product map
or `data` envelope). -/
inductive JBody where
  | leaf : JLeaf → JBody
  | arr : List JEntry → JBody
  | map : List (String × JInner) → JBody
deriving DecidableEq, Repr

/-- A completed HTTP exchange as the validators see it: the status code and
the parsed JSON body (`none` models `response.json()` raising). -/
structure Response where
  status : ℤ
  body : Option JBody
deriving DecidableEq, Repr

/-- The dictionary keys of an entry, when it is a dictionary
(`isinstance(x, dict)`). -/
def JEntry.dictKeys : JEntry → Option (List String)
  | .obj o => some (o.map Prod.fst)
  | .leaf _ => none

/-- The dictionary keys of an inner value, when it is a dictionary: a plain
entry-dict or a nested name-keyed map both count as Python dicts. -/
def JInner.dictKeys : JInner → Option (List String)
  | .entry e => e.dictKeys
  | .arr _ => none
  | .map m => some (m.map Prod.fst)

/-- `required_fields` loop: every required field name occurs among the
dictionary's keys. -/
def hasRequiredFields (required : List String) (keys : List String) : Bool :=
  required.all (fun f => keys.contains f)

/-- The first-element schema check of
`http_validation.check_products_list_schema`: the element must be a
dictionary containing `name`, `description` and `price`. -/
def firstEntryOK (e : JEntry) : Bool :=
  match e.dictKeys with
  | some ks => hasRequiredFields ["name", "description", "price"] ks
  | none => false

/-- The first-entry schema check for map-shaped results in
`http_validation.check_products_list_schema`. -/
def firstInnerOK (i : JInner) : Bool :=
  match i.dictKeys with
  | some ks => hasRequiredFields ["name", "description", "price"] ks
  | none => false

namespace HttpValidation

/-- The trailing list check of
`http_validation.check_products_list_schema`: an empty list is valid,
otherwise only the first element is schema-checked. -/
def listCheck (l : List JEntry) : Bool :=
  match l with
  | [] => true
  | e :: _ => firstEntryOK e

/-- `check_products_list_schema`
(`src/locust-simulations/src/utils/http_validation.py`, lines 63-145).
Dispatch mirrors the source: a bare dict without `data` checks its first
value; a dict with `data` checks the enveloped map or list (a `data` dict
of non-dict values fails on its first value unless empty); a `data` value
that is neither dict nor list falls through to `return True`; a bare list
checks its first element; anything else (or a JSON parse failure) is
invalid. -/
def check_products_list_schema (b : Option JBody) : Bool :=
  match b with
  | none => false
  | some (.map kvs) =>
      match kvs.lookup "data" with
      | none =>
          match kvs with
          | [] => true
          | (_, v) :: _ => firstInnerOK v
      | some (.map m) =>
          match m with
          | [] => true
          | (_, v) :: _ => firstEntryOK v
      | some (.arr l) => listCheck l
      | some (.entry (.obj [])) => true
      | some (.entry (.obj (_ :: _))) => false
      | some (.entry (.leaf _)) => true
  | some (.arr l) => listCheck l
  | some (.leaf _) => false

end HttpValidation

namespace Validators

/-- The trailing list check of `validators.check_products_list_schema`: an
empty list is valid, otherwise the first element must be a dictionary with
`productID` and `name`. -/
def listCheck (l : List JEntry) : Bool :=
  match l with
  | [] => true
  | e :: _ =>
      match e.dictKeys with
      | some ks => hasRequiredFields ["productID", "name"] ks
      | none => false

/-- `check_products_list_schema`
(`src/locust-simulations/src/utils/validators.py`, lines 109-157): accepts
only a bare list or a dict with a `data` field; the extracted value must be
a list; the first element must be a dictionary with `productID` and
`name`. -/
def check_products_list_schema (b : Option JBody) : Bool :=
  match b with
  | none => false
  | some (.map kvs) =>
      match kvs.lookup "data" with
      | some (.arr l) => listCheck l
      | some _ => false
      | none => false
  | some (.arr l) => listCheck l
  | some (.leaf _) => false

end Validators

/-- A status-code expectation: one expected value or a set of acceptable
values, as the specification describes the constructor's argument. -/
inductive StatusExpected where
  | single : ℤ → StatusExpected
  | several : List ℤ → StatusExpected
deriving DecidableEq, Repr

/-- `check_status_code` (`src/locust-simulations/src/utils/validators.py`
lines 29-44 and `http_validation.py` lines 19-25): the returned predicate
is `response.status_code != expected_code` negated.  Python value equality
makes an integer status equal a `single` value exactly when they are the
same number, and never equal a set of values, so a `several` expectation
never matches. -/
def check_status_code (expected : StatusExpected) (r : Response) : Bool :=
  match expected with
  | .single c => r.status == c
  | .several _ => false

/-- A validator in a `validate_response` check list: `none` models the
predicate raising an exception. -/
abbrev Check := Response → Option Bool

/-- The observable outcome of one check inside the `try`/`except` of
`validate_response`: a raised exception counts as a failed check. -/
def checkOutcome (c : Check) (r : Response) : Bool :=
  (c r).getD false

/-- The loop of `validate_response` (`validators.py` lines 7-27,
`http_validation.py` lines 7-17), threading the `success` flag and
recording each check's outcome in order. -/
def validateLoop (r : Response) : List Check → Bool → Bool × List Bool
  | [], success => (success, [])
  | c :: rest, success =>
      let res := checkOutcome c r
      let out := validateLoop r rest (success && res)
      (out.1, res :: out.2)

/-- `validate_response`: run every check, setting `success = False` on a
falsy result or a raised exception, and return the flag. -/
def validate_response (r : Response) (checks : List Check) : Bool :=
  (validateLoop r checks true).1

end ValidationModel

namespace RetryModel

open ValidationModel

/-- The outcome of one invocation of the request function: it either raises
or yields a response. -/
inductive ReqOutcome where
  | raise : ReqOutcome
  | resp : Response → ReqOutcome

/-- What `_retry_request` did: how many times the request function was
invoked, the backoff delays slept (in order), and the returned value
(`none` for Python `None`). -/
structure RetryResult where
  calls : ℕ
  sleeps : List ℕ
  result : Option Response
deriving DecidableEq, Repr

/-- The `for attempt in range(max_retries)` loop of `_retry_request`
(`src/locust-simulations/src/base_user.py`, lines 126-170).  `fuel` is the
number of remaining loop iterations (`maxRetries - attempt`); running out of
fuel is the loop ending, after which the function returns `None`.  A 5xx
response or a validation failure retries only while `attempt <
max_retries - 1`; otherwise the response is returned as-is.  An exception
retries under the same condition and otherwise leaves the loop. -/
def retryLoop (req : ℕ → ReqOutcome) (validators : List Check)
    (maxRetries : ℕ) : ℕ → ℕ → ℕ → RetryResult
  | _, _, 0 => { calls := 0, sleeps := [], result := none }
  | attempt, delay, fuel + 1 =>
      match req attempt with
      | .raise =>
          if attempt + 1 < maxRetries then
            let r := retryLoop req validators maxRetries (attempt + 1)
              (delay * 2) fuel
            { calls := r.calls + 1, sleeps := delay :: r.sleeps,
              result := r.result }
          else { calls := 1, sleeps := [], result := none }
      | .resp res =>
          if (500 ≤ res.status ∧ res.status < 600) ∧
              attempt + 1 < maxRetries then
            let r := retryLoop req validators maxRetries (attempt + 1)
              (delay * 2) fuel
            { calls := r.calls + 1, sleeps := delay :: r.sleeps,
              result := r.result }
          else if validators.isEmpty = false ∧
              validate_response res validators = false ∧
              attempt + 1 < maxRetries then
            let r := retryLoop req validators maxRetries (attempt + 1)
              (delay * 2) fuel
            { calls := r.calls + 1, sleeps := delay :: r.sleeps,
              result := r.result }
          else { calls := 1, sleeps := [], result := some res }

/-- `_retry_request(request_func, name, validators=None, max_retries=3)`:
`retry_delay` starts at 1 and the loop runs over
`range(max_retries)`.  An absent validator list is the empty list
(`if validators:` is falsy for both `None` and `[]`). -/
def retry_request (req : ℕ → ReqOutcome) (validators : List Check)
    (maxRetries : ℕ) : RetryResult :=
  retryLoop req validators maxRetries 0 1 maxRetries

end RetryModel

namespace WeightsModel

/-- Python `max(a, b)` on floats, modelled over the rationals. -/
def pyMax (a b : ℚ) : ℚ := if a ≤ b then b else a

/-- Python `abs(q)` over the rationals. -/
def pyAbs (q : ℚ) : ℚ := if q < 0 then -q else q

/-- The command-line weight overrides (`cli_overrides`): a dict from action
name to weight, modelled as an association list with distinct keys. -/
abbrev Overrides := List (String × ℚ)

/-- `weight_per_non_overridden` in `create_action_config` of
`src/tests/simulate.py` (lines 67-75): the remaining probability mass
`max(0, 1 - sum(overrides))` divided by the number of non-overridden
actions (`num_actions - len(cli_overrides)`), or 0 when none remain. -/
def testsPer (actions : List String) (ov : Overrides) : ℚ :=
  if 0 < actions.length - ov.length then
    pyMax 0 (1 - (ov.map Prod.snd).sum) /
      ((actions.length - ov.length : ℕ) : ℚ)
  else 0

/-- The per-action weight assignment of `create_action_config` in
`src/tests/simulate.py` (lines 82-89): an overridden action takes its
override; every other action takes `weight_per_non_overridden`. -/
def testsAssign (actions : List String) (ov : Overrides) :
    List (String × ℚ) :=
  actions.map (fun a => (a, (ov.lookup a).getD (testsPer actions ov)))

/-- `final_total_weight` of `create_action_config` in
`src/tests/simulate.py`: the sum of the assigned weights. -/
def testsFinalTotal (actions : List String) (ov : Overrides) : ℚ :=
  ((testsAssign actions ov).map Prod.snd).sum

/-- The weight table produced by `create_action_config` in
`src/tests/simulate.py` (lines 66-99), including the trailing
normalisation (lines 91-95): when the assigned weights do not sum to 1
within `1e-9`, every weight is divided by the sum. -/
def testsWeights (actions : List String) (ov : Overrides) :
    List (String × ℚ) :=
  if 0 < actions.length ∧
      1 / 1000000000 < pyAbs (testsFinalTotal actions ov - 1) then
    (testsAssign actions ov).map
      (fun aw => (aw.1, aw.2 / testsFinalTotal actions ov))
  else testsAssign actions ov

/-- The per-action weight assignment of `create_action_config` in
`src/simulations/src/simulate.py` (lines 95-115): an overridden action
takes its override; a non-overridden action with no base weight (`None`)
takes the evenly redistributed remainder; a non-overridden action with a
base weight keeps that base weight. -/
def simAssign (base : List (String × Option ℚ)) (ov : Overrides) :
    List (String × ℚ) :=
  let totalOverride : ℚ := (base.map (fun ab => (ov.lookup ab.1).getD 0)).sum
  let numOverridden : ℕ :=
    (base.filter (fun ab => (ov.lookup ab.1).isSome)).length
  let numNot : ℕ := base.length - numOverridden
  let remaining : ℚ := pyMax 0 (1 - totalOverride)
  let per : ℚ := if 0 < numNot then remaining / (numNot : ℚ) else 0
  base.map (fun ab =>
    (ab.1,
      match ov.lookup ab.1 with
      | some w => w
      | none =>
          match ab.2 with
          | none => per
          | some bw => bw))

/-- `final_total_weight` of `create_action_config` in
`src/simulations/src/simulate.py` (lines 108-115). -/
def simFinalTotal (base : List (String × Option ℚ)) (ov : Overrides) : ℚ :=
  ((simAssign base ov).map Prod.snd).sum

/-- The weight table produced by `create_action_config` in
`src/simulations/src/simulate.py` (lines 95-122), including the trailing
normalisation (lines 117-122). -/
def simWeights (base : List (String × Option ℚ)) (ov : Overrides) :
    List (String × ℚ) :=
  if 0 < base.length ∧
      1 / 1000000000 < pyAbs (simFinalTotal base ov - 1) then
    (simAssign base ov).map
      (fun aw => (aw.1, aw.2 / simFinalTotal base ov))
  else simAssign base ov

/-- `BASE_ACTION_CONFIG` of `src/simulations/src/simulate.py` (lines
30-40): the static base weight table (0.15 for the five product actions,
0.10 for `BAD_PATH` and `HEALTH_CHECK`, 0.05 for `STATUS_CHECK`). -/
def BASE_ACTION_CONFIG : List (String × Option ℚ) :=
  [("GET_ALL", some (3 / 20)), ("GET_BY_CATEGORY", some (3 / 20)),
   ("GET_BY_NAME", some (3 / 20)), ("UPDATE_STOCK", some (3 / 20)),
   ("BUY_PRODUCT", some (3 / 20)), ("BAD_PATH", some (1 / 10)),
   ("STATUS_CHECK", some (1 / 20)), ("HEALTH_CHECK", some (1 / 10))]

end WeightsModel

namespace UserModel

open SharedDataModel

/-- Process-level state for the per-user cache-handle analysis: the heap of
allocated `SharedData` instances and, per started user, the heap index its
`self.shared_data` handle refers to. -/
structure Proc where
  heap : List SharedData
  userRef : List ℕ
deriving Repr

/-- Importing `src/locust-simulations/src/users/base_user.py` runs the
module-level `shared_data = SharedData()` (line 19), allocating the global
instance at heap index 0. -/
def usersModuleInit : Proc :=
  { heap := [SharedData.init], userRef := [] }

/-- `BaseUser.on_start` (`src/locust-simulations/src/users/base_user.py`,
lines 32-35): `self.shared_data = shared_data` — the starting user's handle
aliases the module-level global instance. -/
def BaseUser_on_start (p : Proc) : Proc :=
  { p with userRef := p.userRef ++ [0] }

/-- `src/locust-simulations/src/base_user.py` defines no module-level
`SharedData`; the process starts with an empty heap. -/
def baseApiModuleInit : Proc :=
  { heap := [], userRef := [] }

/-- `BaseAPIUser.on_start` (`src/locust-simulations/src/base_user.py`,
lines 33-35): `self.shared_data = SharedData()` — allocates a fresh
instance for this user and stores a handle to it. -/
def BaseAPIUser_on_start (p : Proc) : Proc :=
  { heap := p.heap ++ [SharedData.init],
    userRef := p.userRef ++ [p.heap.length] }

/-- `self.shared_data.update_products(products)` performed by user `u`:
mutates the heap cell the user's handle refers to. -/
def updateThrough (p : Proc) (u : ℕ) (ps : List ProductDict) (now : ℕ) :
    Proc :=
  match p.userRef.get? u with
  | none => p
  | some i =>
      match p.heap.get? i with
      | none => p
      | some s => { p with heap := p.heap.set i (s.update_products ps now) }

/-- `self.shared_data.get_products()` performed by user `u`. -/
def readThrough (p : Proc) (u : ℕ) : List ProductDict :=
  match p.userRef.get? u with
  | none => []
  | some i =>
      match p.heap.get? i with
      | none => []
      | some s => s.get_products

end UserModel

namespace SharedDataModel

lemma mem_addCategory {x : JLeaf} {acc : List JLeaf} {p : ProductDict} :
    x ∈ addCategory acc p ↔
      x ∈ acc ∨ (p.lookup "category" = some x ∧ x.truthy) := by
  unfold addCategory
  cases hp : p.lookup "category" with
  | none => simp
  | some v =>
      by_cases hv : v.truthy
      · by_cases hin : v ∈ acc
        · simp only [hv, if_true, hin]
          constructor
          · intro h; exact Or.inl h
          · rintro (h | ⟨hx, _⟩)
            · exact h
            · cases hx; exact hin
        · simp only [hv, if_true, hin, if_false, List.mem_append,
            List.mem_singleton]
          constructor
          · rintro (h | h)
            · exact Or.inl h
            · exact Or.inr ⟨by rw [h], by cases h; exact hv⟩
          · rintro (h | ⟨hx, _⟩)
            · exact Or.inl h
            · cases hx; exact Or.inr rfl
      · simp only [hv, if_false]
        constructor
        · intro h; exact Or.inl h
        · rintro (h | ⟨hx, hx'⟩)
          · exact h
          · cases hx; exact absurd hx' (by simpa using hv)

lemma mem_foldl_addCategory {x : JLeaf} (ps : List ProductDict)
    (c : List JLeaf) :
    x ∈ ps.foldl addCategory c ↔
      x ∈ c ∨ ∃ p ∈ ps, p.lookup "category" = some x ∧ x.truthy := by
  induction ps generalizing c with
  | nil => simp
  | cons p rest ih =>
      simp only [List.foldl_cons, ih (addCategory c p), mem_addCategory,
        List.mem_cons]
      constructor
      · rintro ((h | h) | ⟨q, hq, hqx⟩)
        · exact Or.inl h
        · exact Or.inr ⟨p, Or.inl rfl, h⟩
        · exact Or.inr ⟨q, Or.inr hq, hqx⟩
      · rintro (h | ⟨q, (rfl | hq), hqx⟩)
        · exact Or.inl (Or.inl h)
        · exact Or.inl (Or.inr hqx)
        · exact Or.inr ⟨q, hq, hqx⟩

lemma mem_categoriesOf {x : JLeaf} (ps : List ProductDict) :
    x ∈ categoriesOf ps ↔
      ∃ p ∈ ps, p.lookup "category" = some x ∧ x.truthy := by
  unfold categoriesOf
  rw [mem_foldl_addCategory]
  simp

lemma categories_mono_step (op : CacheOp) (s : SharedData) :
    ∀ x ∈ s.categories, x ∈ (op.step s).categories := by
  intro x hx
  cases op with
  | update ps now =>
      simp only [CacheOp.step, SharedData.update_products]
      exact (mem_foldl_addCategory ps s.categories).mpr (Or.inl hx)
  | getProducts => exact hx
  | getRandomProduct k => exact hx
  | getProductByName name => exact hx
  | getCategories => exact hx
  | getRandomCategory k => exact hx

end SharedDataModel

namespace ValidationModel

lemma validateLoop_spec (r : Response) (checks : List Check) (b : Bool) :
    validateLoop r checks b =
      (b && checks.all (fun c => checkOutcome c r),
        checks.map (fun c => checkOutcome c r)) := by
  induction checks generalizing b with
  | nil => simp [validateLoop]
  | cons c rest ih =>
      simp [validateLoop, ih, Bool.and_assoc]

end ValidationModel

namespace RetryModel

open ValidationModel

lemma retryLoop_raise_eq (req : ℕ → ReqOutcome) (validators : List Check)
    (maxRetries : ℕ) (hreq : ∀ n, req n = .raise) :
    ∀ fuel attempt delay, attempt + fuel = maxRetries →
      retryLoop req validators maxRetries attempt delay fuel =
        { calls := fuel,
          sleeps := (List.range (fuel - 1)).map (fun i => delay * 2 ^ i),
          result := none } := by
  intro fuel
  induction fuel with
  | zero => intro attempt delay _; rfl
  | succ k ih =>
      intro attempt delay hsum
      rw [retryLoop, hreq attempt]
      cases k with
      | zero =>
          have hlt : ¬ attempt + 1 < maxRetries := by omega
          simp [hlt]
      | succ m =>
          have hlt : attempt + 1 < maxRetries := by omega
          have hrec := ih (attempt + 1) (delay * 2) (by omega)
          have hs : (List.range (m + 1)).map (fun i => delay * 2 ^ i) =
              delay :: (List.range m).map (fun i => delay * 2 * 2 ^ i) := by
            rw [List.range_succ_eq_map, List.map_cons, List.map_map]
            refine congrArg₂ List.cons (by simp) (List.map_congr_left ?_)
            intro i _
            simp only [Function.comp_apply, pow_succ]
            ring
          simp only [hlt, if_true, hrec, Nat.add_sub_cancel, hs]

lemma retryLoop_raise_result (req : ℕ → ReqOutcome)
    (validators : List Check) (maxRetries : ℕ)
    (hreq : ∀ n, n < maxRetries → req n = .raise) :
    ∀ fuel attempt delay, attempt + fuel = maxRetries →
      (retryLoop req validators maxRetries attempt delay fuel).result =
        none := by
  intro fuel
  induction fuel with
  | zero => intro attempt delay _; rfl
  | succ k ih =>
      intro attempt delay hsum
      rw [retryLoop, hreq attempt (by omega)]
      by_cases hlt : attempt + 1 < maxRetries
      · simp only [hlt, if_true]
        exact ih (attempt + 1) (delay * 2) (by omega)
      · simp [hlt]

end RetryModel

namespace WeightsModel

lemma lookup_cons_self {β : Type} (k : String) (v : β)
    (l : List (String × β)) : ((k, v) :: l).lookup k = some v := by
  simp [List.lookup]

lemma lookup_cons_ne {β : Type} (k a : String) (v : β)
    (l : List (String × β)) (h : a ≠ k) :
    ((k, v) :: l).lookup a = l.lookup a := by
  have hb : (a == k) = false := beq_eq_false_iff_ne.mpr h
  simp [List.lookup, hb]

lemma lookup_map_graph {α : Type} (f : String → α) (l : List String)
    (x : String) (hx : x ∈ l) :
    (l.map (fun a => (a, f a))).lookup x = some (f x) := by
  induction l with
  | nil => cases hx
  | cons a rest ih =>
      by_cases hax : x = a
      · subst hax
        rw [List.map_cons, lookup_cons_self]
      · rw [List.map_cons, lookup_cons_ne _ _ _ _ hax]
        exact ih ((List.mem_cons.mp hx).resolve_left hax)

lemma lookup_eq_none_of_not_mem_keys (ov : Overrides) (x : String)
    (hx : x ∉ ov.map Prod.fst) : ov.lookup x = none := by
  induction ov with
  | nil => rfl
  | cons kv rest ih =>
      obtain ⟨k, v⟩ := kv
      simp only [List.map_cons, List.mem_cons] at hx
      push_neg at hx
      rw [lookup_cons_ne _ _ _ _ hx.1]
      exact ih hx.2

lemma lookup_map_div (l : List (String × ℚ)) (t : ℚ) (x : String) :
    (l.map (fun aw => (aw.1, aw.2 / t))).lookup x =
      (l.lookup x).map (fun w => w / t) := by
  induction l with
  | nil => rfl
  | cons kv rest ih =>
      obtain ⟨k, v⟩ := kv
      by_cases hx : x = k
      · subst hx
        rw [List.map_cons, lookup_cons_self, lookup_cons_self]
        rfl
      · rw [List.map_cons, lookup_cons_ne _ _ _ _ hx,
          lookup_cons_ne _ _ _ _ hx]
        exact ih

lemma length_le_of_nodup_subset {l1 l2 : List String} (h1 : l1.Nodup)
    (hsub : ∀ x ∈ l1, x ∈ l2) : l1.length ≤ l2.length := by
  classical
  calc l1.length = l1.toFinset.card := (List.toFinset_card_of_nodup h1).symm
    _ ≤ l2.toFinset.card := by
        refine Finset.card_le_card ?_
        intro x hx
        rw [List.mem_toFinset] at hx ⊢
        exact hsub x hx
    _ ≤ l2.length := l2.toFinset_card_le

lemma sum_lookup_getD (ov : Overrides) :
    ∀ (actions : List String) (per : ℚ), (ov.map Prod.fst).Nodup →
      (∀ k ∈ ov.map Prod.fst, k ∈ actions) → actions.Nodup →
      (actions.map (fun a => (ov.lookup a).getD per)).sum =
        (ov.map Prod.snd).sum +
          ((actions.length - ov.length : ℕ) : ℚ) * per := by
  induction ov with
  | nil =>
      intro actions per _ _ _
      simp only [List.lookup_nil, Option.getD_none, List.map_nil,
        List.sum_nil, List.length_nil, Nat.sub_zero, zero_add]
      rw [List.map_const']
      simp [List.sum_replicate, nsmul_eq_mul]
  | cons kv ov' ih =>
      intro actions per hnodup hsub hact
      obtain ⟨k, w⟩ := kv
      simp only [List.map_cons, List.nodup_cons] at hnodup
      have hk : k ∈ actions := hsub k (by simp)
      obtain ⟨l1, l2, rfl⟩ := List.append_of_mem hk
      have hknotl1 : k ∉ l1 := by
        intro hmem
        exact (List.nodup_append.mp hact).2.2 hmem (by simp)
      have hknotl2 : k ∉ l2 := by
        have := (List.nodup_append.mp hact).2.1
        simp only [List.nodup_cons] at this
        exact this.1
      have hlookup_ne : ∀ a : String, a ≠ k →
          (((k, w) :: ov').lookup a) = ov'.lookup a := by
        intro a ha
        exact lookup_cons_ne _ _ _ _ ha
      have hmap1 : ∀ l : List String, k ∉ l →
          (l.map (fun a => ((((k, w) :: ov').lookup a)).getD per)) =
            (l.map (fun a => (ov'.lookup a).getD per)) := by
        intro l hkl
        refine List.map_congr_left ?_
        intro a hal
        rw [hlookup_ne a (fun h => hkl (h ▸ hal))]
      have hact' : (l1 ++ l2).Nodup := by
        have h := List.nodup_append.mp hact
        have h2 := h.2.1
        simp only [List.nodup_cons] at h2
        refine List.nodup_append.mpr ⟨h.1, h2.2, ?_⟩
        intro a hal1 hal2
        exact h.2.2 hal1 (by simp [hal2])
      have hsub' : ∀ x ∈ ov'.map Prod.fst, x ∈ l1 ++ l2 := by
        intro x hx
        have hxact := hsub x (by simp [hx])
        have hxk : x ≠ k := fun h => hnodup.1 (h ▸ hx)
        simp only [List.mem_append, List.mem_cons] at hxact ⊢
        rcases hxact with h | h
        · exact Or.inl h
        · rcases h with h | h
          · exact absurd h hxk
          · exact Or.inr h
      have hiv := ih (l1 ++ l2) per hnodup.2 hsub' hact'
      have hlen : ov'.length ≤ (l1 ++ l2).length := by
        have := length_le_of_nodup_subset hnodup.2 hsub'
        simpa using this
      have hkk : (((k, w) :: ov').lookup k) = some w :=
        lookup_cons_self _ _ _
      rw [List.map_append, List.sum_append, List.map_cons, List.sum_cons,
        hkk, Option.getD_some, hmap1 l1 hknotl1, hmap1 l2 hknotl2]
      rw [List.map_append, List.sum_append] at hiv
      have hsplit : (l1.map (fun a => (ov'.lookup a).getD per)).sum +
          (l2.map (fun a => (ov'.lookup a).getD per)).sum =
            (ov'.map Prod.snd).sum +
              (((l1 ++ l2).length - ov'.length : ℕ) : ℚ) * per := hiv
      have hlenarith :
          (((l1 ++ k :: l2).length - ((k, w) :: ov').length : ℕ) : ℚ) =
            (((l1 ++ l2).length - ov'.length : ℕ) : ℚ) := by
        congr 1
        simp only [List.length_append, List.length_cons]
        omega
      rw [List.map_cons, List.sum_cons, hlenarith]
      linarith [hsplit]

end WeightsModel


/-- C8: for every sequence of products (including the empty one), calling
`update_products` with that sequence and then immediately `get_products`
returns exactly the sequence passed in, order preserved. -/
theorem update_products_then_get_products_roundtrip
    (s : SharedDataModel.SharedData) (ps : List ProductDict) (now : ℕ) :
    (s.update_products ps now).get_products = ps := rfl

/-- C5: category accumulation is monotonic.  After two successive
`update_products` calls carrying category sets C1 then C2,
`get_categories` contains every member of C1 and of C2; and no cache
operation ever removes a previously observed category. -/
theorem categories_accumulate_monotonically :
    (∀ (s : SharedDataModel.SharedData) (ps1 ps2 : List ProductDict)
        (t1 t2 : ℕ) (x : JLeaf),
        (x ∈ SharedDataModel.categoriesOf ps1 ∨
          x ∈ SharedDataModel.categoriesOf ps2) →
        x ∈ ((s.update_products ps1 t1).update_products ps2 t2).get_categories) ∧
    (∀ (op : SharedDataModel.CacheOp) (s : SharedDataModel.SharedData)
        (x : JLeaf),
        x ∈ s.get_categories → x ∈ (op.step s).get_categories) := by
  constructor
  · intro s ps1 ps2 t1 t2 x hx
    rcases hx with hx | hx
    · have h1 : x ∈ (s.update_products ps1 t1).categories := by
        rw [SharedDataModel.SharedData.update_products,
          SharedDataModel.mem_foldl_addCategory]
        exact Or.inr ((SharedDataModel.mem_categoriesOf ps1).mp hx)
      show x ∈ ((s.update_products ps1 t1).update_products ps2 t2).categories
      rw [SharedDataModel.SharedData.update_products,
        SharedDataModel.mem_foldl_addCategory]
      exact Or.inl h1
    · show x ∈ ((s.update_products ps1 t1).update_products ps2 t2).categories
      rw [SharedDataModel.SharedData.update_products,
        SharedDataModel.mem_foldl_addCategory]
      exact Or.inr ((SharedDataModel.mem_categoriesOf ps2).mp hx)
  · intro op s x hx
    exact SharedDataModel.categories_mono_step op s x hx

/-- C5 witness: concrete instantiation of both conjuncts, discharging the
membership hypotheses at explicit product lists. -/
theorem categories_accumulate_monotonically_witness :
    JLeaf.str "Books" ∈
      ((SharedDataModel.SharedData.init.update_products
          [[("category", JLeaf.str "Books")]] 0).update_products
        [[("category", JLeaf.str "Toys")]] 1).get_categories ∧
    JLeaf.str "Books" ∈
      (SharedDataModel.CacheOp.getProducts.step
        { products := [], categories := [JLeaf.str "Books"],
          lastProductUpdate := 0 }).get_categories :=
  ⟨categories_accumulate_monotonically.1 _ _ _ _ _ _ (Or.inl (by decide)),
    categories_accumulate_monotonically.2 _ _ _ (by decide)⟩

/-- C9: `validate_response` equals the conjunction of every check's
outcome, and the evaluation trace records one outcome per configured check
in order — every predicate is evaluated even after a failure. -/
theorem validate_response_is_conjunction_of_all_checks
    (r : ValidationModel.Response) (checks : List ValidationModel.Check) :
    ValidationModel.validate_response r checks =
      checks.all (fun c => ValidationModel.checkOutcome c r) ∧
    (ValidationModel.validateLoop r checks true).2 =
      checks.map (fun c => ValidationModel.checkOutcome c r) := by
  have h := ValidationModel.validateLoop_spec r checks true
  constructor
  · rw [ValidationModel.validate_response, h]
    simp
  · rw [h]

/-- C10: a check that raises is caught, counted as a failure (overall
result `False`), and the remaining checks still run (the trace covers the
whole check list); `validate_response` itself is a total Boolean function
and never propagates the exception. -/
theorem validate_response_catches_raising_checks
    (r : ValidationModel.Response) (checks : List ValidationModel.Check)
    (c : ValidationModel.Check) (hc : c ∈ checks) (hraise : c r = none) :
    ValidationModel.validate_response r checks = false ∧
    (ValidationModel.validateLoop r checks true).2.length =
      checks.length := by
  have h := ValidationModel.validateLoop_spec r checks true
  constructor
  · rw [ValidationModel.validate_response, h]
    simp only [Bool.true_and]
    cases hall : checks.all (fun c => ValidationModel.checkOutcome c r) with
    | false => rfl
    | true =>
        have := List.all_eq_true.mp hall c hc
        rw [ValidationModel.checkOutcome, hraise] at this
        exact absurd this (by simp)
  · rw [h]
    simp

/-- C10 witness: a single always-raising check makes the result `false`
while the trace still has full length. -/
theorem validate_response_catches_raising_checks_witness :
    ValidationModel.validate_response { status := 200, body := none }
      [fun _ => none] = false ∧
    (ValidationModel.validateLoop { status := 200, body := none }
      [fun _ => none] true).2.length = 1 :=
  validate_response_catches_raising_checks { status := 200, body := none }
    [fun _ => none] (fun _ => none) (by simp) rfl

/-- C4: for every `max_retries ≥ 1`, a request function that raises on
every invocation is invoked exactly `max_retries` times, the executor then
returns absent, and the delays slept between attempts start at 1 and
double after each retry (1, 2, 4, ...). -/
theorem retry_request_always_raising_counts_and_backoff
    (maxRetries : ℕ) (req : ℕ → RetryModel.ReqOutcome)
    (validators : List ValidationModel.Check) (hmax : 1 ≤ maxRetries)
    (hreq : ∀ n, req n = RetryModel.ReqOutcome.raise) :
    RetryModel.retry_request req validators maxRetries =
      { calls := maxRetries,
        sleeps := (List.range (maxRetries - 1)).map (fun i => 2 ^ i),
        result := none } := by
  have h := RetryModel.retryLoop_raise_eq req validators maxRetries hreq
    maxRetries 0 1 (by omega)
  rw [RetryModel.retry_request, h]
  simp

/-- C4 witness: three attempts, all raising — three calls, sleeps 1 then 2,
no result. -/
theorem retry_request_always_raising_counts_and_backoff_witness :
    RetryModel.retry_request (fun _ => RetryModel.ReqOutcome.raise) [] 3 =
      { calls := 3, sleeps := [1, 2], result := none } := by
  rw [retry_request_always_raising_counts_and_backoff 3
    (fun _ => RetryModel.ReqOutcome.raise) [] (by omega) (fun _ => rfl)]
  rfl

/-- C1 (amended): when every attempt raises, exhausting the budget returns
absent — the last error is logged, not propagated (the executor is a total
function returning `none`, not an exception). -/
theorem retry_request_exhausted_by_exceptions_returns_absent
    (maxRetries : ℕ) (req : ℕ → RetryModel.ReqOutcome)
    (validators : List ValidationModel.Check)
    (hreq : ∀ n, n < maxRetries → req n = RetryModel.ReqOutcome.raise) :
    (RetryModel.retry_request req validators maxRetries).result = none :=
  RetryModel.retryLoop_raise_result req validators maxRetries hreq
    maxRetries 0 1 (by omega)

/-- C1 witness: two raising attempts, absent result. -/
theorem retry_request_exhausted_by_exceptions_returns_absent_witness :
    (RetryModel.retry_request (fun _ => RetryModel.ReqOutcome.raise)
      [] 2).result = none :=
  retry_request_exhausted_by_exceptions_returns_absent 2
    (fun _ => RetryModel.ReqOutcome.raise) [] (fun _ _ => rfl)

/-- C1 counterexample: a request function that yields a 500 response on
every attempt exhausts the budget without a successful outcome, yet
`_retry_request` returns the final 5xx response, not absent. -/
theorem retry_request_final_5xx_is_returned_not_absent :
    (RetryModel.retry_request
      (fun _ => RetryModel.ReqOutcome.resp { status := 500, body := none })
      [] 3).result = some { status := 500, body := none } ∧
    (RetryModel.retry_request
      (fun _ => RetryModel.ReqOutcome.resp { status := 500, body := none })
      [] 3).result ≠ none := by
  have heval : (RetryModel.retry_request
      (fun _ => RetryModel.ReqOutcome.resp { status := 500, body := none })
      [] 3).result = some { status := 500, body := none } := rfl
  exact ⟨heval, by rw [heval]; exact Option.some_ne_none _⟩

/-- C3: evaluation at the failing input.  Two `BaseAPIUser`s each run
`on_start`; user 0 updates the cache through its handle, yet user 1's
subsequent read returns the empty list because `BaseAPIUser.on_start`
allocates a fresh `SharedData` per user (contradicting its own "Use global
instance" comment).  The `users/base_user.py` variant, which aliases the
module-level instance, does make the update visible to the other user. -/
theorem baseAPIUser_update_not_visible_to_other_users :
    UserModel.readThrough
      (UserModel.updateThrough
        (UserModel.BaseAPIUser_on_start
          (UserModel.BaseAPIUser_on_start UserModel.baseApiModuleInit))
        0 [[("name", JLeaf.str "Widget")]] 5) 1 = [] ∧
    UserModel.readThrough
      (UserModel.updateThrough
        (UserModel.BaseAPIUser_on_start
          (UserModel.BaseAPIUser_on_start UserModel.baseApiModuleInit))
        0 [[("name", JLeaf.str "Widget")]] 5) 0 =
      [[("name", JLeaf.str "Widget")]] ∧
    UserModel.readThrough
      (UserModel.updateThrough
        (UserModel.BaseUser_on_start
          (UserModel.BaseUser_on_start UserModel.usersModuleInit))
        0 [[("name", JLeaf.str "Widget")]] 5) 1 =
      [[("name", JLeaf.str "Widget")]] := by
  refine ⟨rfl, rfl, rfl⟩

/-- C7 counterexample: the status-code validator built from the set
{200, 409} judges a response with status 409 as invalid, because
`response.status_code != expected_code` is always true when the expected
value is a set. -/
theorem check_status_code_set_rejects_409 :
    ValidationModel.check_status_code
      (ValidationModel.StatusExpected.several [200, 409])
      { status := 409, body := none } = false := rfl

/-- C7 (amended): `check_status_code` compares the status for equality
with a single expected value; a set-valued expectation never matches any
status, so {200, 409} judges a 409 response (and every other response)
invalid.  Treating 409 as acceptable happens outside the validators. -/
theorem check_status_code_single_value_equality :
    (∀ (c : ℤ) (r : ValidationModel.Response),
      ValidationModel.check_status_code
        (ValidationModel.StatusExpected.single c) r = (r.status == c)) ∧
    (∀ (cs : List ℤ) (r : ValidationModel.Response),
      ValidationModel.check_status_code
        (ValidationModel.StatusExpected.several cs) r = false) ∧
    ValidationModel.check_status_code
      (ValidationModel.StatusExpected.single 409)
      { status := 409, body := none } = true ∧
    ValidationModel.check_status_code
      (ValidationModel.StatusExpected.single 200)
      { status := 409, body := none } = false :=
  ⟨fun _ _ => rfl, fun _ _ => rfl, by decide, by decide⟩

/-- C6 counterexample: the `validators.py` products-list validator judges
the empty bare map invalid (it accepts only bare lists and `data`-enveloped
lists), refuting "an empty result (empty list, empty map, or empty
enveloped data) is always judged valid" for that cited validator. -/
theorem validators_schema_rejects_empty_bare_map :
    ValidationModel.Validators.check_products_list_schema
      (some (ValidationModel.JBody.map [])) = false := rfl

/-- C6 (amended): for the `http_validation.py` products-list validator the
claim holds: every empty shape (bare list, bare map, enveloped list,
enveloped map) is valid, and for non-empty shapes the verdict depends only
on the first element/entry, checked for `name`, `description`, `price`.
The `validators.py` variant instead accepts only list shapes and checks
`productID` and `name`. -/
theorem http_schema_checks_only_first_entry :
    (ValidationModel.HttpValidation.check_products_list_schema
      (some (ValidationModel.JBody.arr [])) = true) ∧
    (ValidationModel.HttpValidation.check_products_list_schema
      (some (ValidationModel.JBody.map [])) = true) ∧
    (ValidationModel.HttpValidation.check_products_list_schema
      (some (ValidationModel.JBody.map
        [("data", ValidationModel.JInner.arr [])])) = true) ∧
    (ValidationModel.HttpValidation.check_products_list_schema
      (some (ValidationModel.JBody.map
        [("data", ValidationModel.JInner.map [])])) = true) ∧
    (∀ (e : ValidationModel.JEntry) (rest : List ValidationModel.JEntry),
      ValidationModel.HttpValidation.check_products_list_schema
        (some (ValidationModel.JBody.arr (e :: rest))) =
        ValidationModel.firstEntryOK e) ∧
    (∀ (e : ValidationModel.JEntry) (rest : List ValidationModel.JEntry),
      ValidationModel.HttpValidation.check_products_list_schema
        (some (ValidationModel.JBody.map
          [("data", ValidationModel.JInner.arr (e :: rest))])) =
        ValidationModel.firstEntryOK e) ∧
    (∀ (k : String) (e : ValidationModel.JEntry)
        (rest : List (String × ValidationModel.JEntry)),
      ValidationModel.HttpValidation.check_products_list_schema
        (some (ValidationModel.JBody.map
          [("data", ValidationModel.JInner.map ((k, e) :: rest))])) =
        ValidationModel.firstEntryOK e) ∧
    (∀ (k : String) (v : ValidationModel.JInner)
        (rest : List (String × ValidationModel.JInner)),
      ((k, v) :: rest).lookup "data" = none →
      ValidationModel.HttpValidation.check_products_list_schema
        (some (ValidationModel.JBody.map ((k, v) :: rest))) =
        ValidationModel.firstInnerOK v) := by
  refine ⟨rfl, rfl, rfl, rfl, fun e rest => rfl, fun e rest => rfl,
    fun k e rest => rfl, fun k v rest h => ?_⟩
  simp only [ValidationModel.HttpValidation.check_products_list_schema, h]

/-- C6 witness: a non-empty bare map without a `data` key is judged by its
first entry alone. -/
theorem http_schema_checks_only_first_entry_witness :
    ([("Widget", ValidationModel.JInner.entry (ValidationModel.JEntry.obj
        [("name", JLeaf.str "Widget")]))].lookup "data" = none) ∧
    ValidationModel.HttpValidation.check_products_list_schema
      (some (ValidationModel.JBody.map
        [("Widget", ValidationModel.JInner.entry (ValidationModel.JEntry.obj
          [("name", JLeaf.str "Widget")]))])) =
      ValidationModel.firstInnerOK
        (ValidationModel.JInner.entry (ValidationModel.JEntry.obj
          [("name", JLeaf.str "Widget")])) :=
  ⟨rfl, http_schema_checks_only_first_entry.2.2.2.2.2.2.2 "Widget" _ [] rfl⟩

/-- C2 (amended): in the `src/tests/simulate.py` variant, every action not
named in the overrides is assigned `max(0, 1 - sum(overrides))` divided by
the number of non-overridden actions (the `src/simulations/src/simulate.py`
variant instead keeps each non-overridden action's base weight and rescales
the table, see the counterexample). -/
theorem tests_weights_redistribute_evenly
    (actions : List String) (ov : WeightsModel.Overrides) (name : String)
    (hact : actions.Nodup) (hkeys : (ov.map Prod.fst).Nodup)
    (hsub : ∀ k ∈ ov.map Prod.fst, k ∈ actions)
    (hname : name ∈ actions) (hnotov : name ∉ ov.map Prod.fst) :
    (WeightsModel.testsWeights actions ov).lookup name =
      some (WeightsModel.pyMax 0 (1 - (ov.map Prod.snd).sum) /
        ((actions.length - ov.length : ℕ) : ℚ)) := by
  classical
  have hovlen : ov.length + 1 ≤ actions.length := by
    have hsub' : ∀ k ∈ ov.map Prod.fst, k ∈ actions.erase name := by
      intro k hk
      have hkne : k ≠ name := fun h => hnotov (h ▸ hk)
      exact (List.mem_erase_of_ne hkne).mpr (hsub k hk)
    have hlen := WeightsModel.length_le_of_nodup_subset hkeys hsub'
    have herase : (actions.erase name).length = actions.length - 1 :=
      List.length_erase_of_mem hname
    have hpos : 0 < actions.length :=
      List.length_pos.mpr (List.ne_nil_of_mem hname)
    rw [List.length_map] at hlen
    omega
  have hnNotpos : 0 < actions.length - ov.length := by omega
  have hnne : ((actions.length - ov.length : ℕ) : ℚ) ≠ 0 :=
    Nat.cast_ne_zero.mpr (by omega)
  have hperval : WeightsModel.testsPer actions ov =
      WeightsModel.pyMax 0 (1 - (ov.map Prod.snd).sum) /
        ((actions.length - ov.length : ℕ) : ℚ) := by
    rw [WeightsModel.testsPer, if_pos hnNotpos]
  have hlookupA : (WeightsModel.testsAssign actions ov).lookup name =
      some (WeightsModel.testsPer actions ov) := by
    rw [WeightsModel.testsAssign,
      WeightsModel.lookup_map_graph
        (fun a => ((ov.lookup a).getD (WeightsModel.testsPer actions ov)))
        actions name hname,
      WeightsModel.lookup_eq_none_of_not_mem_keys ov name hnotov]
    rfl
  have htotal : WeightsModel.testsFinalTotal actions ov =
      (ov.map Prod.snd).sum +
        ((actions.length - ov.length : ℕ) : ℚ) *
          WeightsModel.testsPer actions ov := by
    rw [WeightsModel.testsFinalTotal, WeightsModel.testsAssign,
      List.map_map]
    exact WeightsModel.sum_lookup_getD ov actions
      (WeightsModel.testsPer actions ov) hkeys hsub hact
  by_cases hT : (ov.map Prod.snd).sum ≤ 1
  · have hmax : WeightsModel.pyMax 0 (1 - (ov.map Prod.snd).sum) =
        1 - (ov.map Prod.snd).sum := by
      rw [WeightsModel.pyMax, if_pos (by linarith)]
    have htotal1 : WeightsModel.testsFinalTotal actions ov = 1 := by
      rw [htotal, hperval, hmax, mul_div_cancel₀ _ hnne]
      ring
    have hcond : ¬ (0 < actions.length ∧
        1 / 1000000000 < WeightsModel.pyAbs
          (WeightsModel.testsFinalTotal actions ov - 1)) := by
      rintro ⟨-, habs⟩
      rw [htotal1] at habs
      have : WeightsModel.pyAbs (1 - 1) = 0 := by
        norm_num [WeightsModel.pyAbs]
      rw [this] at habs
      norm_num at habs
    rw [WeightsModel.testsWeights, if_neg hcond, hlookupA, hperval]
  · have hmax : WeightsModel.pyMax 0 (1 - (ov.map Prod.snd).sum) = 0 := by
      rw [WeightsModel.pyMax, if_neg (by linarith)]
    have hper0 : WeightsModel.testsPer actions ov = 0 := by
      rw [hperval, hmax, zero_div]
    rw [WeightsModel.testsWeights]
    by_cases hcond : (0 < actions.length ∧
        1 / 1000000000 < WeightsModel.pyAbs
          (WeightsModel.testsFinalTotal actions ov - 1))
    · rw [if_pos hcond, WeightsModel.lookup_map_div, hlookupA, hper0,
        hmax, zero_div]
      simp
    · rw [if_neg hcond, hlookupA, hper0, hmax, zero_div]

/-- C2 witness: actions A and B with A overridden to 1/2 — B receives
`max(0, 1 - 1/2) / 1`. -/
theorem tests_weights_redistribute_evenly_witness :
    (WeightsModel.testsWeights ["A", "B"] [("A", 1 / 2)]).lookup "B" =
      some (WeightsModel.pyMax 0
          (1 - ([(("A" : String), (1 / 2 : ℚ))].map Prod.snd).sum) /
        ((["A", "B"].length - [(("A" : String), (1 / 2 : ℚ))].length : ℕ) :
          ℚ)) :=
  tests_weights_redistribute_evenly ["A", "B"] [("A", 1 / 2)] "B"
    (by decide) (by decide) (by decide) (by decide) (by decide)

/-- C2 counterexample: `create_action_config` of
`src/simulations/src/simulate.py`, run on its own `BASE_ACTION_CONFIG`
with the override `GET_ALL = 1/2`, leaves `HEALTH_CHECK` at its base
weight 1/10 and rescales the table by its 27/20 total, yielding 2/27 —
not the evenly redistributed `max(0, 1 - 1/2) / 7 = 1/14` the claim
requires for every non-overridden action. -/
theorem sim_weights_keep_base_weights :
    (WeightsModel.simWeights WeightsModel.BASE_ACTION_CONFIG
      [("GET_ALL", 1 / 2)]).lookup "HEALTH_CHECK" = some (2 / 27) ∧
    (2 / 27 : ℚ) ≠ WeightsModel.pyMax 0
        (1 - ([(("GET_ALL" : String), (1 / 2 : ℚ))].map Prod.snd).sum) /
      ((WeightsModel.BASE_ACTION_CONFIG.length -
        [(("GET_ALL" : String), (1 / 2 : ℚ))].length : ℕ) : ℚ) := by
  constructor
  · have h1 : WeightsModel.simAssign WeightsModel.BASE_ACTION_CONFIG
        [("GET_ALL", 1 / 2)] =
        [("GET_ALL", 1 / 2), ("GET_BY_CATEGORY", 3 / 20),
         ("GET_BY_NAME", 3 / 20), ("UPDATE_STOCK", 3 / 20),
         ("BUY_PRODUCT", 3 / 20), ("BAD_PATH", 1 / 10),
         ("STATUS_CHECK", 1 / 20), ("HEALTH_CHECK", 1 / 10)] := rfl
    have h2 : WeightsModel.simFinalTotal WeightsModel.BASE_ACTION_CONFIG
        [("GET_ALL", 1 / 2)] = 27 / 20 := by
      rw [WeightsModel.simFinalTotal, h1]
      norm_num
    have hcond : 0 < WeightsModel.BASE_ACTION_CONFIG.length ∧
        1 / 1000000000 < WeightsModel.pyAbs
          (WeightsModel.simFinalTotal WeightsModel.BASE_ACTION_CONFIG
            [("GET_ALL", 1 / 2)] - 1) := by
      refine ⟨by norm_num [WeightsModel.BASE_ACTION_CONFIG], ?_⟩
      rw [h2]
      norm_num [WeightsModel.pyAbs]
    rw [WeightsModel.simWeights, if_pos hcond,
      WeightsModel.lookup_map_div, h1, h2]
    have h3 : ([("GET_ALL", (1 : ℚ) / 2), ("GET_BY_CATEGORY", 3 / 20),
         ("GET_BY_NAME", 3 / 20), ("UPDATE_STOCK", 3 / 20),
         ("BUY_PRODUCT", 3 / 20), ("BAD_PATH", 1 / 10),
         ("STATUS_CHECK", 1 / 20),
         ("HEALTH_CHECK", 1 / 10)]).lookup "HEALTH_CHECK" =
        some (1 / 10) := rfl
    rw [h3]
    norm_num
  · norm_num [WeightsModel.pyMax, WeightsModel.BASE_ACTION_CONFIG]
